import Mathlib

/-!
Verification development for the baojs HTTP router core.

Embedded from the TypeScript sources:
  * `src/lib/context.ts`   — the `Context` class (lock flag, response helpers);
  * `src/lib/router/router.ts` — the `BaoRouter` class (per-method trees,
    `on`, `ws`, `find`, the `NOT_FOUND` sentinel);
  * `src/lib/middleware.ts` — the `Middleware` class (before/after chains);
  * `src/lib/bao.ts`        — the `fetch` dispatch step (404 substitution)
    and the default not-found handler.

The route trie (`tree.ts`, class `Node` with `addRoute`/`search`) and the
top-level `Router.handle` dispatcher are not part of the provided sources;
they are modelled from the specification where indicated.

Machine strings are Lean `String`; path segmentation is defined character
by character so that all definitions evaluate inside the kernel.
-/

namespace Baojs

/-- Splits a list of characters at every slash, accumulating the current
segment in reverse. Helper for `splitPath`. -/
def splitSegsAux : List Char → List Char → List String
  | [], acc => [String.mk acc.reverse]
  | c :: cs, acc =>
    if c = '/' then String.mk acc.reverse :: splitSegsAux cs []
    else splitSegsAux cs (c :: acc)

/-- Modelled from the spec: both `register` and `search` split a path into
slash-delimited segments; empty segments (the one before a leading slash)
do not count. -/
def splitPath (s : String) : List String :=
  (splitSegsAux s.data []).filter (fun x => x != "")

/-- Tests whether the first character of a string is `c` (the shape of the
TypeScript test `path[0] !== "/"` and of the `:`/`*` segment markers). -/
def headIs (s : String) (c : Char) : Bool :=
  match s.data with
  | [] => false
  | d :: _ => d = c

/-- Shallow model of a fetch `Response`: the status code and the body text. -/
structure Resp where
  status : Nat
  body : String
deriving DecidableEq, Repr

/-- Embeds the `Context` class of `src/lib/context.ts`, generic over the
type `ρ` of the raw request object. The private TypeScript field
`#forceSend` is the field `forceSendFlag`. Fields of the class that no
claim touches (server, headers, host, url, query) are omitted. -/
structure Context (ρ : Type) where
  req : ρ
  method : String
  path : String
  res : Option Resp
  params : List (String × String)
  extra : List (String × String)
  forceSendFlag : Bool
deriving Repr

/-- Embeds the `Context` constructor (`src/lib/context.ts` lines 54-66):
the response starts absent and the lock flag false. -/
def Context.create (req : ρ) (method path : String) : Context ρ :=
  { req := req, method := method, path := path, res := none,
    params := [], extra := [], forceSendFlag := false }

/-- Embeds `Context.forceSend` (`src/lib/context.ts` lines 73-76): sets the
private flag and returns the context. -/
def Context.forceSend (c : Context ρ) : Context ρ :=
  { c with forceSendFlag := true }

/-- Embeds `Context.isLocked` (`src/lib/context.ts` lines 83-85). -/
def Context.isLocked (c : Context ρ) : Bool :=
  c.forceSendFlag

/-- Embeds `Context.sendText` (`src/lib/context.ts` lines 143-146): builds a
response from the text and the status option and stores it in `res`. -/
def Context.sendText (c : Context ρ) (text : String) (status : Nat) : Context ρ :=
  { c with res := some ⟨status, text⟩ }

/-- Embeds `Context.sendJson` (`src/lib/context.ts` lines 124-134); `body`
stands for the serialised JSON text. -/
def Context.sendJson (c : Context ρ) (body : String) (status : Nat) : Context ρ :=
  { c with res := some ⟨status, body⟩ }

/-- Embeds `Context.sendPrettyJson` (`src/lib/context.ts` lines 105-115);
`body` stands for the pretty-printed JSON text. -/
def Context.sendPrettyJson (c : Context ρ) (body : String) (status : Nat) : Context ρ :=
  { c with res := some ⟨status, body⟩ }

/-- Embeds `Context.sendEmpty` (`src/lib/context.ts` lines 93-96): an empty
body with the status option. -/
def Context.sendEmpty (c : Context ρ) (status : Nat) : Context ρ :=
  { c with res := some ⟨status, ""⟩ }

/-- Embeds `Context.sendRaw` (`src/lib/context.ts` lines 154-157). -/
def Context.sendRaw (c : Context ρ) (r : Resp) : Context ρ :=
  { c with res := some r }

/-- The mutating operations of the `Context` class, used to state the
one-way lock claim over arbitrary operation sequences. `opSetParams` and
`opSetExtra` stand for the pipeline writing the public `params`/`extra`
fields; the rest are the response helpers and `forceSend`. -/
inductive COp (ρ : Type) where
  | opForceSend
  | opSendEmpty (status : Nat)
  | opSendPrettyJson (body : String) (status : Nat)
  | opSendJson (body : String) (status : Nat)
  | opSendText (text : String) (status : Nat)
  | opSendRaw (r : Resp)
  | opSetParams (ps : List (String × String))
  | opSetExtra (e : List (String × String))

/-- Interprets one `Context` operation. -/
def COp.apply : COp ρ → Context ρ → Context ρ
  | .opForceSend, c => c.forceSend
  | .opSendEmpty st, c => c.sendEmpty st
  | .opSendPrettyJson b st, c => c.sendPrettyJson b st
  | .opSendJson b st, c => c.sendJson b st
  | .opSendText t st, c => c.sendText t st
  | .opSendRaw r, c => c.sendRaw r
  | .opSetParams ps, c => { c with params := ps }
  | .opSetExtra e, c => { c with extra := e }

/-- Runs a sequence of `Context` operations from the left. -/
def runOps (ops : List (COp ρ)) (c : Context ρ) : Context ρ :=
  ops.foldl (fun a op => COp.apply op a) c

/-- Modelled from the spec: one node of the route trie (`tree.ts` is not
under the provided sources). A node holds literal-keyed static children,
at most one named Param child, at most one named Wildcard entry (which is
always terminal: it carries a handler directly and has no child node), and
an optional bound handler. -/
inductive Node (α : Type) : Type where
  | mk : List (String × Node α) → Option (String × Node α) → Option (String × α) → Option α → Node α

/-- The static children of a node. -/
def Node.statics : Node α → List (String × Node α)
  | .mk s _ _ _ => s

/-- The Param child of a node: its captured name and subtree. -/
def Node.paramChild : Node α → Option (String × Node α)
  | .mk _ p _ _ => p

/-- The Wildcard entry of a node: its captured name and handler. -/
def Node.wildcardChild : Node α → Option (String × α)
  | .mk _ _ w _ => w

/-- The handler bound at a node, when the node is terminal for a route. -/
def Node.handler : Node α → Option α
  | .mk _ _ _ h => h

/-- A fresh empty node (the `new Node()` of the sources). -/
def Node.empty : Node α := .mk [] none none none

/-- Looks up the static child bound to literal `s`. -/
def findStatic : List (String × Node α) → String → Option (Node α)
  | [], _ => none
  | (k, n) :: rest, s => if k = s then some n else findStatic rest s

/-- Replaces the static child bound to literal `s`, or appends the binding
when the literal is new. -/
def setStatic : List (String × Node α) → String → Node α → List (String × Node α)
  | [], s, n => [(s, n)]
  | (k, m) :: rest, s, n =>
    if k = s then (k, n) :: rest else (k, m) :: setStatic rest s n

/-- Registration-time configuration errors. `pathNotSlash` is the thrown
message `path must begin with a slash`; `wildcardNotTerminal` is the
error for a Wildcard segment that is not the last segment of its pattern. -/
inductive RegError where
  | pathNotSlash
  | wildcardNotTerminal
deriving DecidableEq, Repr

/-- Modelled from the spec: inserts a pattern, already split into segments,
into the trie. A segment with a leading colon is a Param segment; a segment
with a leading star is a Wildcard segment and must be the final segment
(otherwise registration fails); every other segment is Static. Registering
an existing path overwrites the previously bound handler (last wins). -/
def insertSegs (h : α) : List String → Node α → Except RegError (Node α)
  | [], .mk st p w _ => .ok (.mk st p w (some h))
  | s :: rest, .mk st p w hd =>
    if headIs s ':' then
      let child := match p with
        | some (_, c) => c
        | none => Node.empty
      match insertSegs h rest child with
      | .ok c2 => .ok (.mk st (some (s.drop 1, c2)) w hd)
      | .error e => .error e
    else if headIs s '*' then
      match rest with
      | [] => .ok (.mk st p (some (s.drop 1, h)) hd)
      | _ :: _ => .error .wildcardNotTerminal
    else
      let child := (findStatic st s).getD Node.empty
      match insertSegs h rest child with
      | .ok c2 => .ok (.mk (setStatic st s c2) p w hd)
      | .error e => .error e

/-- Modelled from the spec: `Node.addRoute(path, handler)` splits the
pattern into segments and inserts it. -/
def Node.addRoute (n : Node α) (path : String) (h : α) : Except RegError (Node α) :=
  insertSegs h (splitPath path) n

/-- Modelled from the spec: the trie walk. At each level it prefers an
exact Static literal match; if none matches it falls back to the Param
child, consuming one segment and recording name to value; if neither
matches and a Wildcard entry exists it consumes all remaining segments
joined by slashes and stops. Reaching the end of the path at a node with
no bound handler fails. -/
def searchSegs : Node α → List String → Option (α × List (String × String))
  | n, [] =>
    match n.handler with
    | some h => some (h, [])
    | none => none
  | n, s :: rest =>
    match findStatic n.statics s with
    | some c => searchSegs c rest
    | none =>
      match n.paramChild with
      | some (name, c) =>
        match searchSegs c rest with
        | some (h, ps) => some (h, (name, s) :: ps)
        | none => none
      | none =>
        match n.wildcardChild with
        | some (w, h) => some (h, [(w, String.intercalate "/" (s :: rest))])
        | none => none

/-- Embeds `IRouterResponse` (`src/lib/router/router.ts`): an optional
handler together with the captured parameter mapping. -/
structure IRouterResponse (α : Type) where
  handler : Option α
  params : List (String × String)

/-- Embeds the `NOT_FOUND` sentinel (`src/lib/router/router.ts` line 72):
a null handler and an empty parameter mapping. -/
def NOT_FOUND : IRouterResponse α := ⟨none, []⟩

/-- Modelled from the spec: `Node.search(path)` splits the query path and
walks the trie; a failed walk yields the not-found sentinel, and lookup
never raises. -/
def Node.search (n : Node α) (path : String) : IRouterResponse α :=
  match searchSegs n (splitPath path) with
  | some (h, ps) => ⟨some h, ps⟩
  | none => NOT_FOUND

/-- Embeds the `BaoRouter` class state (`src/lib/router/router.ts`): the
mapping from method name to route tree, as an association list. -/
structure BaoRouter (α : Type) where
  trees : List (String × Node α)

/-- The router with no trees (the `BaoRouter` constructor). -/
def BaoRouter.empty : BaoRouter α := ⟨[]⟩

/-- Embeds `BaoRouter.on` (`src/lib/router/router.ts` lines 100-109): it
throws the path configuration error unless the path begins with a slash,
then lazily creates the tree for the method and delegates to `addRoute`. -/
def BaoRouter.on (r : BaoRouter α) (method path : String) (h : α) :
    Except RegError (BaoRouter α) :=
  if headIs path '/' then
    let tree := (findStatic r.trees method).getD Node.empty
    match insertSegs h (splitPath path) tree with
    | .ok t => .ok ⟨setStatic r.trees method t⟩
    | .error e => .error e
  else
    .error .pathNotSlash

/-- Embeds `BaoRouter.ws` (`src/lib/router/router.ts` lines 90-99): same
path check, registering into the reserved tree keyed `WS`. -/
def BaoRouter.ws (r : BaoRouter α) (path : String) (h : α) :
    Except RegError (BaoRouter α) :=
  if headIs path '/' then
    let tree := (findStatic r.trees "WS").getD Node.empty
    match insertSegs h (splitPath path) tree with
    | .ok t => .ok ⟨setStatic r.trees "WS" t⟩
    | .error e => .error e
  else
    .error .pathNotSlash

/-- Embeds `BaoRouter.find` (`src/lib/router/router.ts` lines 110-116):
looks up the tree for the method; with no tree for that method it returns
the `NOT_FOUND` sentinel without creating anything. -/
def BaoRouter.find (r : BaoRouter α) (method path : String) : IRouterResponse α :=
  match findStatic r.trees method with
  | some t => t.search path
  | none => NOT_FOUND

/-- Runs a list of `(method, path, handler)` registrations through
`BaoRouter.on` from the left, stopping at the first configuration error. -/
def registerAll (r : BaoRouter α) : List (String × String × α) → Except RegError (BaoRouter α)
  | [] => .ok r
  | (m, p, h) :: rest =>
    match BaoRouter.on r m p h with
    | .ok r2 => registerAll r2 rest
    | .error e => .error e

/-- Walks only the static children of the trie: the handler reached from
`n` by taking the exact literal child at every level. -/
def staticFind : Node α → List String → Option α
  | n, [] => n.handler
  | n, s :: rest =>
    match findStatic n.statics s with
    | some c => staticFind c rest
    | none => none

/-- A segment list is static when no segment carries a Param or Wildcard
marker. -/
def staticSegs (ps : List String) : Bool :=
  ps.all (fun s => !(headIs s ':') && !(headIs s '*'))

/-- Embeds the `Middleware` class state (`src/lib/middleware.ts`): the two
ordered handler lists. -/
structure Middleware (ρ : Type) where
  beforeList : List (Context ρ → Context ρ)
  afterList : List (Context ρ → Context ρ)

/-- Embeds the loop shared by `Middleware.before` and `Middleware.after`
(`src/lib/middleware.ts` lines 26-31 and 39-44): each iteration first
checks the lock and skips the middleware when the context is locked,
otherwise replaces the context by the middleware result. -/
def runChain (mws : List (Context ρ → Context ρ)) (ctx : Context ρ) : Context ρ :=
  mws.foldl (fun c mw => if c.isLocked then c else mw c) ctx

/-- Embeds `Middleware.before`. -/
def Middleware.runBefore (m : Middleware ρ) (ctx : Context ρ) : Context ρ :=
  runChain m.beforeList ctx

/-- Embeds `Middleware.after`. -/
def Middleware.runAfter (m : Middleware ρ) (ctx : Context ρ) : Context ρ :=
  runChain m.afterList ctx

/-- Modelled from the spec: `Router.handle` (the dispatcher source file is
not under the provided sources). It runs the before chain; if not locked
it looks up the handler by the context method and path, installs the
captured params and invokes the handler, adopting its returned context (a
miss leaves the context as is); if still not locked it runs the after
chain. -/
def handle (r : BaoRouter (Context ρ → Context ρ)) (mw : Middleware ρ)
    (ctx : Context ρ) : Context ρ :=
  let c1 := mw.runBefore ctx
  let c2 :=
    if c1.isLocked then c1
    else
      let found := r.find c1.method c1.path
      match found.handler with
      | some h => h { c1 with params := found.params }
      | none => c1
  if c2.isLocked then c2 else mw.runAfter c2

/-- Embeds the 404 substitution of the serve fetch entry point
(`src/lib/bao.ts` line 286): a pipeline response with the not-found status
is replaced by the configured not-found handler response, any other
response is returned as is. -/
def dispatchResponse (notFound : Context ρ → Resp) (ctx : Context ρ) (res : Resp) : Resp :=
  if res.status = 404 then notFound ctx else res

/-- Embeds the default `notFoundHandler` (`src/lib/bao.ts` lines 29-33). -/
def defaultNotFoundHandler (_ctx : Context ρ) : Resp :=
  ⟨404, "404 Not Found"⟩

/-- The serve fetch entry point (`src/lib/bao.ts` lines 283-287) on top of
the modelled dispatcher: run the pipeline, then substitute the not-found
response when the final response is unset or carries the 404 status. -/
def serveFetch (r : BaoRouter (Context ρ → Context ρ)) (mw : Middleware ρ)
    (notFound : Context ρ → Resp) (ctx : Context ρ) : Resp :=
  let c := handle r mw ctx
  match c.res with
  | some res => dispatchResponse notFound ctx res
  | none => notFound ctx

/-! ### Lemmas about the middleware chain and the lock -/

/-- A locked context passes through the middleware loop untouched: every
iteration takes the skip branch. -/
theorem runChain_locked (mws : List (Context ρ → Context ρ)) (ctx : Context ρ)
    (h : ctx.isLocked = true) : runChain mws ctx = ctx := by
  induction mws with
  | nil => rfl
  | cons mw rest ih =>
    show runChain rest (if ctx.isLocked then ctx else mw ctx) = ctx
    rw [h]
    simpa using ih

/-- The middleware loop over a concatenation runs the two halves in order. -/
theorem runChain_append (a b : List (Context ρ → Context ρ)) (ctx : Context ρ) :
    runChain (a ++ b) ctx = runChain b (runChain a ctx) := by
  simp [runChain, List.foldl_append]

/-- Every `Context` operation preserves a set lock flag. -/
theorem apply_keeps_locked (op : COp ρ) (c : Context ρ) (h : c.isLocked = true) :
    (COp.apply op c).isLocked = true := by
  cases op <;>
    simp_all [COp.apply, Context.isLocked, Context.forceSend, Context.sendEmpty,
      Context.sendPrettyJson, Context.sendJson, Context.sendText, Context.sendRaw]

/-! ### Claim theorems: the lock state machine and frame effects -/

/-- Claim C5: the Context lock is a one-way state machine. A freshly
constructed Context is Open; `forceSend` transitions Open to Locked and is
idempotent; no operation ever transitions Locked back to Open, so
`isLocked` is monotone over any sequence of Context operations. -/
theorem c5_lock_one_way :
    (∀ (ρ : Type) (req : ρ) (method path : String),
        (Context.create req method path).isLocked = false) ∧
    (∀ (ρ : Type) (c : Context ρ),
        c.forceSend.isLocked = true ∧ c.forceSend.forceSend = c.forceSend) ∧
    (∀ (ρ : Type) (ops : List (COp ρ)) (c : Context ρ),
        c.isLocked = true → (runOps ops c).isLocked = true) := by
  refine ⟨fun ρ req method path => rfl, fun ρ c => ⟨rfl, rfl⟩, fun ρ ops => ?_⟩
  induction ops with
  | nil => exact fun c h => h
  | cons op rest ih =>
    intro c h
    exact ih (COp.apply op c) (apply_keeps_locked op c h)

/-- Witness for C5 at a concrete context and operation list. -/
theorem c5_lock_one_way_witness :
    (runOps [COp.opSendText "x" 200]
      (Context.create () "GET" "/").forceSend).isLocked = true :=
  c5_lock_one_way.2.2 Unit [COp.opSendText "x" 200]
    (Context.create () "GET" "/").forceSend rfl

/-- Claim C10: `forceSend` mutates only the lock flag, leaving req, res,
params and extra unchanged; each response helper sets only the `res` field
without changing the lock flag, params or extra; hence a chain
`sendText` then `forceSend` locks the context with exactly the
just-attached response. -/
theorem c10_frame_effects (ρ : Type) (c : Context ρ) (r : Resp)
    (t b : String) (st : Nat) :
    (c.forceSend.req = c.req ∧ c.forceSend.res = c.res ∧
      c.forceSend.params = c.params ∧ c.forceSend.extra = c.extra ∧
      c.forceSend.method = c.method ∧ c.forceSend.path = c.path ∧
      c.forceSend.isLocked = true) ∧
    ((c.sendText t st).res = some ⟨st, t⟩ ∧ (c.sendText t st).req = c.req ∧
      (c.sendText t st).params = c.params ∧ (c.sendText t st).extra = c.extra ∧
      (c.sendText t st).forceSendFlag = c.forceSendFlag) ∧
    ((c.sendJson b st).res = some ⟨st, b⟩ ∧ (c.sendJson b st).req = c.req ∧
      (c.sendJson b st).params = c.params ∧ (c.sendJson b st).extra = c.extra ∧
      (c.sendJson b st).forceSendFlag = c.forceSendFlag) ∧
    ((c.sendEmpty st).res = some ⟨st, ""⟩ ∧ (c.sendEmpty st).req = c.req ∧
      (c.sendEmpty st).params = c.params ∧ (c.sendEmpty st).extra = c.extra ∧
      (c.sendEmpty st).forceSendFlag = c.forceSendFlag) ∧
    ((c.sendRaw r).res = some r ∧ (c.sendRaw r).req = c.req ∧
      (c.sendRaw r).params = c.params ∧ (c.sendRaw r).extra = c.extra ∧
      (c.sendRaw r).forceSendFlag = c.forceSendFlag) ∧
    ((c.sendText t st).forceSend.res = some ⟨st, t⟩ ∧
      (c.sendText t st).forceSend.isLocked = true) :=
  ⟨⟨rfl, rfl, rfl, rfl, rfl, rfl, rfl⟩, ⟨rfl, rfl, rfl, rfl, rfl⟩,
    ⟨rfl, rfl, rfl, rfl, rfl⟩, ⟨rfl, rfl, rfl, rfl, rfl⟩,
    ⟨rfl, rfl, rfl, rfl, rfl⟩, ⟨rfl, rfl⟩⟩

/-- Claim C9: when the pipeline response carries status 404 the dispatch
entry point returns the configured not-found handler response (the default
produces body `404 Not Found` with status 404); any other status is
returned as is. -/
theorem c9_not_found_substitution :
    (∀ (ρ : Type) (r : BaoRouter (Context ρ → Context ρ)) (mw : Middleware ρ)
        (nf : Context ρ → Resp) (ctx : Context ρ) (res : Resp),
        (handle r mw ctx).res = some res →
        (res.status = 404 → serveFetch r mw nf ctx = nf ctx) ∧
        (res.status ≠ 404 → serveFetch r mw nf ctx = res)) ∧
    (∀ (ρ : Type) (ctx : Context ρ),
        defaultNotFoundHandler ctx = ⟨404, "404 Not Found"⟩) := by
  refine ⟨fun ρ r mw nf ctx res h => ⟨fun h404 => ?_, fun hne => ?_⟩,
    fun ρ ctx => rfl⟩
  · simp [serveFetch, h, dispatchResponse, h404]
  · simp [serveFetch, h, dispatchResponse, hne]

/-- Witness for C9: a before-middleware attaches a 200 response on an
empty router; the dispatch step returns it unmodified. -/
theorem c9_not_found_substitution_witness :
    serveFetch (BaoRouter.empty) (⟨[fun c => c.sendText "hi" 200], []⟩ : Middleware Unit)
      defaultNotFoundHandler (Context.create () "GET" "/") = ⟨200, "hi"⟩ :=
  (c9_not_found_substitution.1 Unit BaoRouter.empty
    ⟨[fun c => c.sendText "hi" 200], []⟩ defaultNotFoundHandler
    (Context.create () "GET" "/") ⟨200, "hi"⟩ rfl).2 (by decide)

/-- Claim C4: once a Context is locked, the before and after chains invoke
none of the remaining middleware and return the locked Context unchanged;
a before-middleware that attaches a response and calls `forceSend`
prevents every later before-middleware, the matched handler and every
after-middleware from running, and the pipeline result is exactly the
context locked with that response (the right-hand side mentions neither
the later middleware, nor the router, nor the after list). -/
theorem c4_lock_short_circuit :
    (∀ (ρ : Type) (m : Middleware ρ) (ctx : Context ρ), ctx.isLocked = true →
        m.runBefore ctx = ctx ∧ m.runAfter ctx = ctx) ∧
    (∀ (ρ : Type) (r : BaoRouter (Context ρ → Context ρ))
        (pre post afterL : List (Context ρ → Context ρ))
        (resp : Resp) (ctx : Context ρ),
        (runChain pre ctx).isLocked = false →
        handle r ⟨pre ++ (fun c => (c.sendRaw resp).forceSend) :: post, afterL⟩ ctx
            = ((runChain pre ctx).sendRaw resp).forceSend ∧
        (handle r ⟨pre ++ (fun c => (c.sendRaw resp).forceSend) :: post, afterL⟩ ctx).res
            = some resp) := by
  constructor
  · intro ρ m ctx h
    exact ⟨runChain_locked m.beforeList ctx h, runChain_locked m.afterList ctx h⟩
  · intro ρ r pre post afterL resp ctx hopen
    have hbefore :
        Middleware.runBefore ⟨pre ++ (fun c => (c.sendRaw resp).forceSend) :: post, afterL⟩ ctx
          = ((runChain pre ctx).sendRaw resp).forceSend := by
      show runChain (pre ++ (fun c => (c.sendRaw resp).forceSend) :: post) ctx
          = ((runChain pre ctx).sendRaw resp).forceSend
      rw [runChain_append]
      show runChain post
          (if (runChain pre ctx).isLocked then runChain pre ctx
            else ((runChain pre ctx).sendRaw resp).forceSend)
          = ((runChain pre ctx).sendRaw resp).forceSend
      rw [hopen]
      exact runChain_locked post _ rfl
    have hres : handle r ⟨pre ++ (fun c => (c.sendRaw resp).forceSend) :: post, afterL⟩ ctx
        = ((runChain pre ctx).sendRaw resp).forceSend := by
      show (let c1 := Middleware.runBefore _ ctx
            let c2 := if c1.isLocked then c1
              else
                let found := r.find c1.method c1.path
                match found.handler with
                | some h => h { c1 with params := found.params }
                | none => c1
            if c2.isLocked then c2 else Middleware.runAfter _ c2)
          = ((runChain pre ctx).sendRaw resp).forceSend
      rw [hbefore]
      rfl
    exact ⟨hres, by rw [hres]; rfl⟩

/-- Witness for C4 at a concrete pipeline: no earlier middleware, one
later before-middleware, one after-middleware, an empty router. -/
theorem c4_lock_short_circuit_witness :
    (Middleware.runBefore (⟨[], []⟩ : Middleware Unit)
        (Context.create () "GET" "/").forceSend
      = (Context.create () "GET" "/").forceSend) ∧
    (handle (BaoRouter.empty)
        (⟨[] ++ (fun c => (Context.sendRaw c ⟨200, "ok"⟩).forceSend) :: [fun c => c], [fun c => c]⟩ :
          Middleware Unit)
        (Context.create () "GET" "/")
      = ((runChain [] (Context.create () "GET" "/")).sendRaw ⟨200, "ok"⟩).forceSend) :=
  ⟨(c4_lock_short_circuit.1 Unit ⟨[], []⟩ (Context.create () "GET" "/").forceSend rfl).1,
    (c4_lock_short_circuit.2 Unit BaoRouter.empty [] [fun c => c] [fun c => c]
      ⟨200, "ok"⟩ (Context.create () "GET" "/") rfl).1⟩

/-! ### Lemmas about the route trie -/

/-- Setting a static child and reading the same literal yields it. -/
theorem findStatic_setStatic_self (l : List (String × Node α)) (s : String) (n : Node α) :
    findStatic (setStatic l s n) s = some n := by
  induction l with
  | nil => simp [setStatic, findStatic]
  | cons kv rest ih =>
    obtain ⟨k, m⟩ := kv
    by_cases h : k = s
    · simp [setStatic, findStatic, h]
    · simp [setStatic, findStatic, h, ih]

/-- Setting a static child leaves every other literal unchanged. -/
theorem findStatic_setStatic_ne (l : List (String × Node α)) (s k : String) (n : Node α)
    (h : k ≠ s) : findStatic (setStatic l s n) k = findStatic l k := by
  induction l with
  | nil =>
    have hsk : ¬s = k := fun he => h he.symm
    simp [setStatic, findStatic, hsk]
  | cons kv rest ih =>
    obtain ⟨k2, m⟩ := kv
    by_cases h2 : k2 = s
    · subst h2
      have hk : ¬k2 = k := fun he => h he.symm
      simp [setStatic, findStatic, hk]
    · by_cases h3 : k2 = k
      · simp [setStatic, findStatic, h2, h3, h]
      · simp [setStatic, findStatic, h2, h3, ih]

/-- The static walk finds nothing in the empty node. -/
theorem staticFind_empty (qs : List String) : staticFind (Node.empty : Node α) qs = none := by
  cases qs <;> rfl

/-- Inserting a pattern made only of static segments binds the handler at
the end of the corresponding static chain. -/
theorem insert_static_find (h : α) (qs : List String) :
    ∀ (n n2 : Node α), staticSegs qs = true → insertSegs h qs n = .ok n2 →
      staticFind n2 qs = some h := by
  induction qs with
  | nil =>
    intro n n2 _ hok
    cases n with
    | mk st p w hd =>
      have : Except.ok (Node.mk st p w (some h)) = Except.ok n2 := hok
      injection this with h2
      subst h2
      rfl
  | cons s rest ih =>
    intro n n2 hstat hok
    have hs1 : headIs s ':' = false := by
      have := hstat
      simp [staticSegs, List.all_cons] at this
      simpa using this.1.1
    have hs2 : headIs s '*' = false := by
      have := hstat
      simp [staticSegs, List.all_cons] at this
      simpa using this.1.2
    have hrest : staticSegs rest = true := by
      have := hstat
      simp [staticSegs, List.all_cons] at this
      simp [staticSegs]
      exact this.2
    cases n with
    | mk st p w hd =>
      simp only [insertSegs, hs1, hs2, Bool.false_eq_true, if_false] at hok
      cases hrec : insertSegs h rest ((findStatic st s).getD Node.empty) with
      | error e => rw [hrec] at hok; exact absurd hok (by simp)
      | ok c2 =>
        rw [hrec] at hok
        have : Node.mk (setStatic st s c2) p w hd = n2 := by injection hok
        subst this
        show staticFind (Node.mk (setStatic st s c2) p w hd) (s :: rest) = some h
        have hfs : findStatic (Node.mk (setStatic st s c2) p w hd).statics s = some c2 :=
          findStatic_setStatic_self st s c2
        simp only [staticFind, hfs]
        exact ih _ _ hrest hrec

/-- Inserting any pattern with a different segment list does not change
the static walk of a given segment list. -/
theorem insert_preserve (h2 : α) (ps : List String) :
    ∀ (qs : List String) (n n2 : Node α), insertSegs h2 ps n = .ok n2 → ps ≠ qs →
      staticFind n2 qs = staticFind n qs := by
  induction ps with
  | nil =>
    intro qs n n2 hok hne
    cases n with
    | mk st p w hd =>
      have : Node.mk st p w (some h2) = n2 := by injection hok
      subst this
      cases qs with
      | nil => exact absurd rfl hne
      | cons q qt => rfl
  | cons s ps2 ih =>
    intro qs n n2 hok hne
    cases n with
    | mk st p w hd =>
      by_cases hc : headIs s ':' = true
      · rcases p with - | ⟨pn, pc⟩
        · simp only [insertSegs, hc, if_true] at hok
          cases hrec : insertSegs h2 ps2 (Node.empty : Node α) with
          | error e => rw [hrec] at hok; exact absurd hok (by simp)
          | ok c2 =>
            rw [hrec] at hok
            have : Node.mk st (some (s.drop 1, c2)) w hd = n2 := by injection hok
            subst this
            cases qs with
            | nil => rfl
            | cons q qt => rfl
        · simp only [insertSegs, hc, if_true] at hok
          cases hrec : insertSegs h2 ps2 pc with
          | error e => rw [hrec] at hok; exact absurd hok (by simp)
          | ok c2 =>
            rw [hrec] at hok
            have : Node.mk st (some (s.drop 1, c2)) w hd = n2 := by injection hok
            subst this
            cases qs with
            | nil => rfl
            | cons q qt => rfl
      · by_cases hw : headIs s '*' = true
        · cases ps2 with
          | nil =>
            simp only [insertSegs, hc, hw, Bool.false_eq_true, if_false, if_true] at hok
            have : Node.mk st p (some (s.drop 1, h2)) hd = n2 := by injection hok
            subst this
            cases qs with
            | nil => rfl
            | cons q qt => rfl
          | cons a b =>
            simp only [insertSegs, hc, hw, Bool.false_eq_true, if_false, if_true] at hok
            exact absurd hok (by simp)
        · simp only [insertSegs, hc, hw, Bool.false_eq_true, if_false] at hok
          cases hrec : insertSegs h2 ps2 ((findStatic st s).getD Node.empty) with
          | error e => rw [hrec] at hok; exact absurd hok (by simp)
          | ok c2 =>
            rw [hrec] at hok
            have : Node.mk (setStatic st s c2) p w hd = n2 := by injection hok
            subst this
            cases qs with
            | nil => rfl
            | cons q qt =>
              by_cases hq : q = s
              · subst hq
                have hps2 : ps2 ≠ qt := fun he => hne (by rw [he])
                have hL : staticFind (Node.mk (setStatic st q c2) p w hd) (q :: qt)
                    = staticFind c2 qt := by
                  simp only [staticFind, Node.statics, findStatic_setStatic_self]
                cases hfs : findStatic st q with
                | some child0 =>
                  have hchild : (findStatic st q).getD Node.empty = child0 := by
                    rw [hfs]; rfl
                  rw [hchild] at hrec
                  have hR : staticFind (Node.mk st p w hd) (q :: qt) = staticFind child0 qt := by
                    simp only [staticFind, Node.statics, hfs]
                  rw [hL, hR]
                  exact ih qt child0 c2 hrec hps2
                | none =>
                  have hchild : (findStatic st q).getD Node.empty = Node.empty := by
                    rw [hfs]; rfl
                  rw [hchild] at hrec
                  have hR : staticFind (Node.mk st p w hd) (q :: qt) = none := by
                    simp only [staticFind, Node.statics, hfs]
                  rw [hL, hR, ih qt Node.empty c2 hrec hps2]
                  exact staticFind_empty qt
              · have hq2 : q ≠ s := hq
                have hL : staticFind (Node.mk (setStatic st s c2) p w hd) (q :: qt)
                    = staticFind (Node.mk st p w hd) (q :: qt) := by
                  simp only [staticFind, Node.statics, findStatic_setStatic_ne st s q c2 hq2]
                exact hL

/-- A successful static walk is a successful search with no captured
parameters: the search prefers the static child at every level. -/
theorem search_of_staticFind (qs : List String) :
    ∀ (n : Node α) (h : α), staticFind n qs = some h → searchSegs n qs = some (h, []) := by
  induction qs with
  | nil =>
    intro n h hsf
    have : n.handler = some h := hsf
    simp [searchSegs, this]
  | cons s rest ih =>
    intro n h hsf
    cases hfs : findStatic n.statics s with
    | none => rw [show staticFind n (s :: rest) = none by simp [staticFind, hfs]] at hsf; cases hsf
    | some c =>
      have hc : staticFind c rest = some h := by
        have : staticFind n (s :: rest) = staticFind c rest := by simp [staticFind, hfs]
        rw [this] at hsf
        exact hsf
      simp only [searchSegs, hfs]
      exact ih c h hc

/-- The handler reached from the tree of method `m` by the purely static
walk of `qs`. -/
def routerStaticFind (r : BaoRouter α) (m : String) (qs : List String) : Option α :=
  match findStatic r.trees m with
  | some t => staticFind t qs
  | none => none

/-- Inverts a successful `BaoRouter.on`: the path began with a slash, the
insertion into the lazily fetched tree succeeded, and the new state stores
the updated tree under the method. -/
theorem on_ok_cases (r r2 : BaoRouter α) (m p : String) (h : α)
    (hok : BaoRouter.on r m p h = .ok r2) :
    headIs p '/' = true ∧
    ∃ t, insertSegs h (splitPath p) ((findStatic r.trees m).getD Node.empty) = .ok t ∧
      r2 = ⟨setStatic r.trees m t⟩ := by
  by_cases hs : headIs p '/' = true
  · refine ⟨hs, ?_⟩
    simp only [BaoRouter.on, hs, if_true] at hok
    cases hins : insertSegs h (splitPath p) ((findStatic r.trees m).getD Node.empty) with
    | error e => rw [hins] at hok; exact absurd hok (by simp)
    | ok t =>
      rw [hins] at hok
      have : (⟨setStatic r.trees m t⟩ : BaoRouter α) = r2 := by injection hok
      exact ⟨t, rfl, this.symm⟩
  · simp only [BaoRouter.on, hs, Bool.false_eq_true, if_false] at hok
    exact absurd hok (by simp)

/-- One registration step keeps the static resolution of method `m` and
segments `qs` pointing at handler `hd`, provided a re-registration of the
very same method and segments carries the same handler. -/
theorem on_staticFind_step (r r2 : BaoRouter α) (m2 p2 : String) (h2 : α)
    (m : String) (qs : List String) (hd : α)
    (hok : BaoRouter.on r m2 p2 h2 = .ok r2)
    (hstat : staticSegs qs = true)
    (hcur : routerStaticFind r m qs = some hd)
    (hsame : m2 = m → splitPath p2 = qs → h2 = hd) :
    routerStaticFind r2 m qs = some hd := by
  obtain ⟨-, t, hins, hr2⟩ := on_ok_cases r r2 m2 p2 h2 hok
  subst hr2
  by_cases hm : m2 = m
  · subst hm
    cases hft : findStatic r.trees m2 with
    | none => rw [show routerStaticFind r m2 qs = none by simp [routerStaticFind, hft]] at hcur; cases hcur
    | some t0 =>
      have ht0 : staticFind t0 qs = some hd := by
        have : routerStaticFind r m2 qs = staticFind t0 qs := by simp [routerStaticFind, hft]
        rw [this] at hcur
        exact hcur
      have hchild : (findStatic r.trees m2).getD Node.empty = t0 := by rw [hft]; rfl
      rw [hchild] at hins
      have hnew : routerStaticFind ⟨setStatic r.trees m2 t⟩ m2 qs = staticFind t qs := by
        simp [routerStaticFind, findStatic_setStatic_self]
      rw [hnew]
      by_cases hp : splitPath p2 = qs
      · have hh : h2 = hd := hsame rfl hp
        subst hh
        rw [hp] at hins
        exact insert_static_find h2 qs t0 t hstat hins
      · rw [insert_preserve h2 (splitPath p2) qs t0 t hins hp]
        exact ht0
  · have : routerStaticFind ⟨setStatic r.trees m2 t⟩ m qs = routerStaticFind r m qs := by
      simp [routerStaticFind, findStatic_setStatic_ne r.trees m2 m t (fun he => hm he.symm)]
    rw [this]
    exact hcur

/-- Registering a static pattern makes the static resolution of its method
and segments yield its handler. -/
theorem on_staticFind_self (r r2 : BaoRouter α) (m p : String) (h : α)
    (hok : BaoRouter.on r m p h = .ok r2)
    (hstat : staticSegs (splitPath p) = true) :
    routerStaticFind r2 m (splitPath p) = some h := by
  obtain ⟨-, t, hins, hr2⟩ := on_ok_cases r r2 m p h hok
  subst hr2
  have hnew : routerStaticFind ⟨setStatic r.trees m t⟩ m (splitPath p) = staticFind t (splitPath p) := by
    simp [routerStaticFind, findStatic_setStatic_self]
  rw [hnew]
  exact insert_static_find h (splitPath p) _ t hstat hins

/-- Running further registrations preserves a static resolution, provided
every later registration of the same method and segments carries the same
handler. -/
theorem registerAll_staticFind_preserve (m : String) (qs : List String) (hd : α)
    (regs : List (String × String × α)) :
    ∀ (r0 r : BaoRouter α), registerAll r0 regs = .ok r → staticSegs qs = true →
      routerStaticFind r0 m qs = some hd →
      (∀ q ∈ regs, q.1 = m → splitPath q.2.1 = qs → q.2.2 = hd) →
      routerStaticFind r m qs = some hd := by
  induction regs with
  | nil =>
    intro r0 r hrun _ hcur _
    have : Except.ok r0 = Except.ok r := hrun
    injection this with h
    exact h ▸ hcur
  | cons q rest ih =>
    intro r0 r hrun hstat hcur huniq
    obtain ⟨m1, p1, h1⟩ := q
    cases hstep : BaoRouter.on r0 m1 p1 h1 with
    | error e =>
      rw [show registerAll r0 ((m1, p1, h1) :: rest) = .error e by
        simp [registerAll, hstep]] at hrun
      exact absurd hrun (by simp)
    | ok r1 =>
      have hrest : registerAll r1 rest = .ok r := by
        rw [show registerAll r0 ((m1, p1, h1) :: rest) = registerAll r1 rest by
          simp [registerAll, hstep]] at hrun
        exact hrun
      have hcur1 : routerStaticFind r1 m qs = some hd :=
        on_staticFind_step r0 r1 m1 p1 h1 m qs hd hstep hstat hcur
          (fun hm hp => huniq (m1, p1, h1) (List.mem_cons_self _ _) hm hp)
      exact ih r1 r hrest hstat hcur1
        (fun q2 hq2 => huniq q2 (List.mem_cons_of_mem _ hq2))

/-- After a whole registration run, a registered static-pattern member of
the list resolves statically to its handler, provided every registration
of the same method and segments carries that handler. -/
theorem registerAll_staticFind_mem (m p : String) (hd : α)
    (regs : List (String × String × α)) :
    ∀ (r0 r : BaoRouter α), registerAll r0 regs = .ok r →
      (m, p, hd) ∈ regs →
      staticSegs (splitPath p) = true →
      (∀ q ∈ regs, q.1 = m → splitPath q.2.1 = splitPath p → q.2.2 = hd) →
      routerStaticFind r m (splitPath p) = some hd := by
  induction regs with
  | nil => intro r0 r _ hmem; cases hmem
  | cons q rest ih =>
    intro r0 r hrun hmem hstat huniq
    obtain ⟨m1, p1, h1⟩ := q
    cases hstep : BaoRouter.on r0 m1 p1 h1 with
    | error e =>
      rw [show registerAll r0 ((m1, p1, h1) :: rest) = .error e by
        simp [registerAll, hstep]] at hrun
      exact absurd hrun (by simp)
    | ok r1 =>
      have hrest : registerAll r1 rest = .ok r := by
        rw [show registerAll r0 ((m1, p1, h1) :: rest) = registerAll r1 rest by
          simp [registerAll, hstep]] at hrun
        exact hrun
      rcases List.mem_cons.mp hmem with heq | hmemr
      · injection heq with hm1 hph
        injection hph with hp1 hh1
        subst hm1; subst hp1; subst hh1
        have hself : routerStaticFind r1 m (splitPath p) = some hd :=
          on_staticFind_self r0 r1 m p hd hstep hstat
        exact registerAll_staticFind_preserve m (splitPath p) hd rest r1 r hrest hstat hself
          (fun q2 hq2 => huniq q2 (List.mem_cons_of_mem _ hq2))
      · exact ih r1 r hrest hmemr hstat
          (fun q2 hq2 => huniq q2 (List.mem_cons_of_mem _ hq2))

/-- Claim C1: for every registered `(method, literal-path, handler)` triple
whose path has only static segments, `find(method, literal-path)` returns
exactly that handler with an empty parameter mapping. The last hypothesis
says `hd` is the handler registered for that method and path (re-registering
the identical path overwrites, last registration wins, so the currently
registered handler is the one found). -/
theorem c1_static_literal_find (α : Type) (regs : List (String × String × α))
    (r : BaoRouter α) (m p : String) (hd : α)
    (hbuild : registerAll BaoRouter.empty regs = .ok r)
    (hmem : (m, p, hd) ∈ regs)
    (hstatic : staticSegs (splitPath p) = true)
    (huniq : ∀ q ∈ regs, q.1 = m → splitPath q.2.1 = splitPath p → q.2.2 = hd) :
    BaoRouter.find r m p = ⟨some hd, []⟩ := by
  have h1 : routerStaticFind r m (splitPath p) = some hd :=
    registerAll_staticFind_mem m p hd regs BaoRouter.empty r hbuild hmem hstatic huniq
  cases hft : findStatic r.trees m with
  | none => rw [show routerStaticFind r m (splitPath p) = none by
      simp [routerStaticFind, hft]] at h1; cases h1
  | some t =>
    have ht : staticFind t (splitPath p) = some hd := by
      have : routerStaticFind r m (splitPath p) = staticFind t (splitPath p) := by
        simp [routerStaticFind, hft]
      rw [this] at h1
      exact h1
    have hsearch : searchSegs t (splitPath p) = some (hd, []) :=
      search_of_staticFind (splitPath p) t hd ht
    simp [BaoRouter.find, hft, Node.search, hsearch]

/-- Witness for C1: one registered static route, found with an empty
parameter mapping. -/
theorem c1_static_literal_find_witness :
    BaoRouter.find
      (⟨[("GET", Node.mk [("a", Node.mk [("b", Node.mk [] none none (some 1))] none none none)]
          none none none)]⟩ : BaoRouter Nat) "GET" "/a/b" = ⟨some 1, []⟩ :=
  c1_static_literal_find Nat [("GET", "/a/b", 1)] _ "GET" "/a/b" 1 rfl
    (by decide) (by decide) (by decide)

/-- Injectivity of the ok constructor for registration results. -/
theorem except_ok_inj {β : Type} {a b : β}
    (h : (Except.ok a : Except RegError β) = Except.ok b) : a = b := by
  injection h

/-- Claim C2: at every level the search prefers an exact Static literal
match, falls back to the Param child only if no Static child matches
(committing to it whether or not the subtree match succeeds, so a present
Wildcard is never consulted when a Param child exists), and uses the
Wildcard entry only if neither matches; concretely, with both
`/posts/:id` and `/posts/*rest` registered, searching `/posts/123`
matches the Param route and never the Wildcard. -/
theorem c2_precedence_static_param_wildcard :
    (∀ (α : Type) (n : Node α) (s : String) (rest : List String) (c : Node α),
        findStatic n.statics s = some c →
        searchSegs n (s :: rest) = searchSegs c rest) ∧
    (∀ (α : Type) (n : Node α) (s : String) (rest : List String)
        (name : String) (c : Node α) (h : α) (ps : List (String × String)),
        findStatic n.statics s = none → n.paramChild = some (name, c) →
        searchSegs c rest = some (h, ps) →
        searchSegs n (s :: rest) = some (h, (name, s) :: ps)) ∧
    (∀ (α : Type) (n : Node α) (s : String) (rest : List String)
        (name : String) (c : Node α),
        findStatic n.statics s = none → n.paramChild = some (name, c) →
        searchSegs c rest = none →
        searchSegs n (s :: rest) = none) ∧
    (∀ (α : Type) (n : Node α) (s : String) (rest : List String)
        (w : String) (h : α),
        findStatic n.statics s = none → n.paramChild = none →
        n.wildcardChild = some (w, h) →
        searchSegs n (s :: rest) = some (h, [(w, String.intercalate "/" (s :: rest))])) ∧
    (∀ (α : Type) (h1 h2 : α) (r : BaoRouter α),
        registerAll BaoRouter.empty
            [("GET", "/posts/:id", h1), ("GET", "/posts/*rest", h2)] = .ok r →
        BaoRouter.find r "GET" "/posts/123" = ⟨some h1, [("id", "123")]⟩) := by
  refine ⟨?_, ?_, ?_, ?_, ?_⟩
  · intro α n s rest c hfs
    simp [searchSegs, hfs]
  · intro α n s rest name c h ps hfs hpc hsc
    simp [searchSegs, hfs, hpc, hsc]
  · intro α n s rest name c hfs hpc hsc
    simp [searchSegs, hfs, hpc, hsc]
  · intro α n s rest w h hfs hpc hwc
    simp [searchSegs, hfs, hpc, hwc]
  · intro α h1 h2 r hyp
    have hR : registerAll (BaoRouter.empty : BaoRouter α)
        [("GET", "/posts/:id", h1), ("GET", "/posts/*rest", h2)] =
        Except.ok (⟨[("GET", Node.mk [("posts", Node.mk []
          (some ("id", Node.mk [] none none (some h1)))
          (some ("rest", h2)) none)] none none none)]⟩ : BaoRouter α) := rfl
    have hr := except_ok_inj (hR.symm.trans hyp)
    subst hr
    rfl

/-- Witness for C2: the Param/Wildcard conflict at concrete handlers. -/
theorem c2_precedence_static_param_wildcard_witness :
    BaoRouter.find
      (⟨[("GET", Node.mk [("posts", Node.mk []
          (some ("id", Node.mk [] none none (some 1)))
          (some ("rest", 2)) none)] none none none)]⟩ : BaoRouter Nat)
      "GET" "/posts/123" = ⟨some 1, [("id", "123")]⟩ :=
  c2_precedence_static_param_wildcard.2.2.2.2 Nat 1 2 _ rfl

/-- Claim C3: a Param segment captures exactly one path segment and a
Wildcard segment captures the whole remainder including embedded slashes:
registering `/user/:user` and searching `/user/42` yields
`user := 42`; registering `/posts/*post`, searching `/posts/123/abc`
yields `post := 123/abc` and searching `/posts/123` yields
`post := 123`. -/
theorem c3_param_wildcard_capture :
    (∀ (α : Type) (h1 : α) (r : BaoRouter α),
        registerAll BaoRouter.empty [("GET", "/user/:user", h1)] = .ok r →
        BaoRouter.find r "GET" "/user/42" = ⟨some h1, [("user", "42")]⟩) ∧
    (∀ (α : Type) (h2 : α) (r : BaoRouter α),
        registerAll BaoRouter.empty [("GET", "/posts/*post", h2)] = .ok r →
        BaoRouter.find r "GET" "/posts/123/abc" = ⟨some h2, [("post", "123/abc")]⟩ ∧
        BaoRouter.find r "GET" "/posts/123" = ⟨some h2, [("post", "123")]⟩) := by
  constructor
  · intro α h1 r hyp
    have hR : registerAll (BaoRouter.empty : BaoRouter α)
        [("GET", "/user/:user", h1)] =
        Except.ok (⟨[("GET", Node.mk [("user", Node.mk []
          (some ("user", Node.mk [] none none (some h1))) none none)]
          none none none)]⟩ : BaoRouter α) := rfl
    have hr := except_ok_inj (hR.symm.trans hyp)
    subst hr
    rfl
  · intro α h2 r hyp
    have hR : registerAll (BaoRouter.empty : BaoRouter α)
        [("GET", "/posts/*post", h2)] =
        Except.ok (⟨[("GET", Node.mk [("posts", Node.mk []
          none (some ("post", h2)) none)] none none none)]⟩ : BaoRouter α) := rfl
    have hr := except_ok_inj (hR.symm.trans hyp)
    subst hr
    exact ⟨rfl, rfl⟩

/-- Witness for C3 at concrete handlers. -/
theorem c3_param_wildcard_capture_witness :
    BaoRouter.find
      (⟨[("GET", Node.mk [("user", Node.mk []
          (some ("user", Node.mk [] none none (some 7))) none none)]
          none none none)]⟩ : BaoRouter Nat)
      "GET" "/user/42" = ⟨some 7, [("user", "42")]⟩ ∧
    BaoRouter.find
      (⟨[("GET", Node.mk [("posts", Node.mk []
          none (some ("post", 9)) none)] none none none)]⟩ : BaoRouter Nat)
      "GET" "/posts/123/abc" = ⟨some 9, [("post", "123/abc")]⟩ :=
  ⟨c3_param_wildcard_capture.1 Nat 7 _ rfl,
   (c3_param_wildcard_capture.2 Nat 9 _ rfl).1⟩

/-- Registrations whose methods all differ from `m` leave the tree slot of
`m` untouched. -/
theorem registerAll_other_method (m : String) (regs : List (String × String × α)) :
    ∀ (r0 r : BaoRouter α), registerAll r0 regs = .ok r →
      (∀ q ∈ regs, q.1 ≠ m) →
      findStatic r.trees m = findStatic r0.trees m := by
  induction regs with
  | nil =>
    intro r0 r hrun _
    have : Except.ok r0 = Except.ok r := hrun
    injection this with h
    rw [h]
  | cons q rest ih =>
    intro r0 r hrun hne
    obtain ⟨m1, p1, h1⟩ := q
    cases hstep : BaoRouter.on r0 m1 p1 h1 with
    | error e =>
      rw [show registerAll r0 ((m1, p1, h1) :: rest) = .error e by
        simp [registerAll, hstep]] at hrun
      exact absurd hrun (by simp)
    | ok r1 =>
      have hrest : registerAll r1 rest = .ok r := by
        rw [show registerAll r0 ((m1, p1, h1) :: rest) = registerAll r1 rest by
          simp [registerAll, hstep]] at hrun
        exact hrun
      obtain ⟨-, t, -, hr1⟩ := on_ok_cases r0 r1 m1 p1 h1 hstep
      have hm1 : m1 ≠ m := hne (m1, p1, h1) (List.mem_cons_self _ _)
      have hstep2 : findStatic r1.trees m = findStatic r0.trees m := by
        rw [hr1]
        exact findStatic_setStatic_ne r0.trees m1 m t (fun he => hm1 he.symm)
      rw [ih r1 r hrest (fun q2 hq2 => hne q2 (List.mem_cons_of_mem _ hq2)), hstep2]

/-- Claim C6: for a method with no registered tree, `find` returns the
not-found sentinel for every path (in this embedding `find` is a pure
total function, so it cannot raise and cannot create a tree); routes
registered under other methods are invisible: building a router from
registrations none of which uses method `m` leaves no tree for `m`, and
`find` under `m` yields the sentinel. -/
theorem c6_unregistered_method :
    (∀ (α : Type) (r : BaoRouter α) (m p : String),
        findStatic r.trees m = none → BaoRouter.find r m p = NOT_FOUND) ∧
    (∀ (α : Type) (regs : List (String × String × α)) (r : BaoRouter α) (m p : String),
        registerAll BaoRouter.empty regs = .ok r →
        (∀ q ∈ regs, q.1 ≠ m) →
        findStatic r.trees m = none ∧ BaoRouter.find r m p = NOT_FOUND) := by
  have part1 : ∀ (α : Type) (r : BaoRouter α) (m p : String),
      findStatic r.trees m = none → BaoRouter.find r m p = NOT_FOUND := by
    intro α r m p h
    simp [BaoRouter.find, h]
  refine ⟨part1, fun α regs r m p hrun hne => ?_⟩
  have h0 : findStatic r.trees m = none := by
    rw [registerAll_other_method m regs BaoRouter.empty r hrun hne]
    rfl
  exact ⟨h0, part1 α r m p h0⟩

/-- Witness for C6: a GET-only router seen through POST. -/
theorem c6_unregistered_method_witness :
    findStatic (⟨[("GET", Node.mk [("a", Node.mk [] none none (some 1))]
        none none none)]⟩ : BaoRouter Nat).trees "POST" = none ∧
    BaoRouter.find (⟨[("GET", Node.mk [("a", Node.mk [] none none (some 1))]
        none none none)]⟩ : BaoRouter Nat) "POST" "/a" = NOT_FOUND :=
  c6_unregistered_method.2 Nat [("GET", "/a", 1)] _ "POST" "/a" rfl (by decide)

/-- Insertion fails only with the non-terminal-wildcard error: the leading
slash check lives in the router, not in the trie. -/
theorem insert_error_only_wildcard (h : α) (ps : List String) :
    ∀ (n : Node α) (e : RegError), insertSegs h ps n = .error e →
      e = .wildcardNotTerminal := by
  induction ps with
  | nil =>
    intro n e he
    cases n with
    | mk st p w hd => exact absurd he (by simp [insertSegs])
  | cons s rest ih =>
    intro n e he
    cases n with
    | mk st p w hd =>
      by_cases hc : headIs s ':' = true
      · rcases p with - | ⟨pn, pc⟩
        · simp only [insertSegs, hc, if_true] at he
          cases hrec : insertSegs h rest (Node.empty : Node α) with
          | ok c2 => rw [hrec] at he; exact absurd he (by simp)
          | error e2 =>
            rw [hrec] at he
            have h2 : e2 = e := by simpa using he
            rw [← h2]
            exact ih _ e2 hrec
        · simp only [insertSegs, hc, if_true] at he
          cases hrec : insertSegs h rest pc with
          | ok c2 => rw [hrec] at he; exact absurd he (by simp)
          | error e2 =>
            rw [hrec] at he
            have h2 : e2 = e := by simpa using he
            rw [← h2]
            exact ih _ e2 hrec
      · by_cases hw : headIs s '*' = true
        · cases rest with
          | nil =>
            simp only [insertSegs, hc, hw, Bool.false_eq_true, if_false, if_true] at he
            exact absurd he (by simp)
          | cons a b =>
            simp only [insertSegs, hc, hw, Bool.false_eq_true, if_false, if_true] at he
            have h2 : RegError.wildcardNotTerminal = e := by simpa using he
            exact h2.symm
        · simp only [insertSegs, hc, hw, Bool.false_eq_true, if_false] at he
          cases hrec : insertSegs h rest ((findStatic st s).getD Node.empty) with
          | ok c2 => rw [hrec] at he; exact absurd he (by simp)
          | error e2 =>
            rw [hrec] at he
            have h2 : e2 = e := by simpa using he
            rw [← h2]
            exact ih _ e2 hrec

/-- `ws` is registration into the reserved `WS` tree. -/
theorem ws_eq_on (r : BaoRouter α) (p : String) (h : α) :
    BaoRouter.ws r p h = BaoRouter.on r "WS" p h := rfl

/-- The path check of `on` alone, as an equivalence. -/
theorem on_pathNotSlash_iff (r : BaoRouter α) (m p : String) (h : α) :
    BaoRouter.on r m p h = .error .pathNotSlash ↔ headIs p '/' = false := by
  constructor
  · intro he
    by_cases hs : headIs p '/' = true
    · exfalso
      simp only [BaoRouter.on, hs, if_true] at he
      cases hins : insertSegs h (splitPath p) ((findStatic r.trees m).getD Node.empty) with
      | ok t => rw [hins] at he; exact absurd he (by simp)
      | error e =>
        rw [hins] at he
        have he2 : e = RegError.pathNotSlash := by simpa using he
        have hwc := insert_error_only_wildcard h (splitPath p) _ e hins
        rw [he2] at hwc
        exact absurd hwc (by decide)
    · cases hb : headIs p '/' with
      | false => rfl
      | true => exact absurd hb hs
  · intro hf
    simp [BaoRouter.on, hf]

/-- Claim C7: `on` and `ws` raise the path configuration error exactly
when the path does not begin with a slash; when it does, the path check
raises nothing and registration proceeds, lazily creating the tree for
the method. -/
theorem c7_leading_slash_check :
    ∀ (α : Type) (r : BaoRouter α) (m p : String) (h : α),
      (BaoRouter.on r m p h = .error .pathNotSlash ↔ headIs p '/' = false) ∧
      (BaoRouter.ws r p h = .error .pathNotSlash ↔ headIs p '/' = false) ∧
      (∀ t, headIs p '/' = true →
          insertSegs h (splitPath p) ((findStatic r.trees m).getD Node.empty) = .ok t →
          ∃ r2, BaoRouter.on r m p h = .ok r2 ∧ findStatic r2.trees m = some t) := by
  intro α r m p h
  refine ⟨on_pathNotSlash_iff r m p h, ?_, ?_⟩
  · rw [ws_eq_on]
    exact on_pathNotSlash_iff r "WS" p h
  · intro t hs hins
    refine ⟨⟨setStatic r.trees m t⟩, ?_, findStatic_setStatic_self r.trees m t⟩
    simp [BaoRouter.on, hs, hins]

/-- Witness for C7: a path without a leading slash is rejected by `on`
and `ws`; a slash path registers and creates the GET tree. -/
theorem c7_leading_slash_check_witness :
    (BaoRouter.on (BaoRouter.empty : BaoRouter Nat) "GET" "ab" 1 = .error .pathNotSlash) ∧
    (BaoRouter.ws (BaoRouter.empty : BaoRouter Nat) "ab" 1 = .error .pathNotSlash) ∧
    (∃ r2, BaoRouter.on (BaoRouter.empty : BaoRouter Nat) "GET" "/a" 1 = .ok r2 ∧
        findStatic r2.trees "GET"
          = some (Node.mk [("a", Node.mk [] none none (some 1))] none none none)) :=
  ⟨(c7_leading_slash_check Nat BaoRouter.empty "GET" "ab" 1).1.mpr (by decide),
   (c7_leading_slash_check Nat BaoRouter.empty "GET" "ab" 1).2.1.mpr (by decide),
   (c7_leading_slash_check Nat BaoRouter.empty "GET" "/a" 1).2.2
     (Node.mk [("a", Node.mk [] none none (some 1))] none none none) (by decide) rfl⟩

/-- A string cannot start with two different characters. -/
theorem headIs_unique (s : String) (c1 c2 : Char)
    (h1 : headIs s c1 = true) (h2 : headIs s c2 = true) : c1 = c2 := by
  unfold headIs at h1 h2
  cases hd : s.data with
  | nil => rw [hd] at h1; cases h1
  | cons d rest =>
    rw [hd] at h1 h2
    have e1 : d = c1 := by simpa using h1
    have e2 : d = c2 := by simpa using h2
    rw [← e1, ← e2]

/-- Inserting any segment list with a Wildcard marker before the final
position fails with the non-terminal-wildcard configuration error. -/
theorem insert_nonterminal_wildcard (hnd : α) (ps : List String) :
    ∀ (n : Node α), (∃ i, i + 1 < ps.length ∧ headIs (ps.getD i "") '*' = true) →
      insertSegs hnd ps n = .error .wildcardNotTerminal := by
  induction ps with
  | nil =>
    intro n hex
    obtain ⟨i, hlen, -⟩ := hex
    exact absurd hlen (by simp)
  | cons s rest ih =>
    intro n hex
    obtain ⟨i, hlen, hstar⟩ := hex
    cases n with
    | mk st p w hd =>
      by_cases hw : headIs s '*' = true
      · cases rest with
        | nil =>
          simp only [List.length_cons, List.length_nil] at hlen
          omega
        | cons a b =>
          by_cases hc : headIs s ':' = true
          · exact absurd (headIs_unique s ':' '*' hc hw) (by decide)
          · simp [insertSegs, hc, hw]
      · cases i with
        | zero =>
          have : headIs s '*' = true := hstar
          exact absurd this hw
        | succ j =>
          have hlen2 : j + 1 < rest.length := by
            simp only [List.length_cons] at hlen
            omega
          have hstar2 : headIs (rest.getD j "") '*' = true := hstar
          by_cases hc : headIs s ':' = true
          · rcases p with - | ⟨pn, pc⟩
            · simp [insertSegs, hc, ih Node.empty ⟨j, hlen2, hstar2⟩]
            · simp [insertSegs, hc, ih pc ⟨j, hlen2, hstar2⟩]
          · simp [insertSegs, hc, hw,
              ih ((findStatic st s).getD Node.empty) ⟨j, hlen2, hstar2⟩]

/-- Claim C8: registering a pattern in which a Wildcard segment is not the
final segment fails with a configuration error at registration time, both
at the trie level and through `on`; Wildcard nodes in a built tree are
terminal by construction (a Wildcard entry stores a handler and has no
child node). -/
theorem c8_nonterminal_wildcard_fails :
    (∀ (α : Type) (hnd : α) (ps : List String) (n : Node α),
        (∃ i, i + 1 < ps.length ∧ headIs (ps.getD i "") '*' = true) →
        insertSegs hnd ps n = .error .wildcardNotTerminal) ∧
    (∀ (α : Type) (hnd : α) (r : BaoRouter α) (m p : String),
        headIs p '/' = true →
        (∃ i, i + 1 < (splitPath p).length ∧
          headIs ((splitPath p).getD i "") '*' = true) →
        BaoRouter.on r m p hnd = .error .wildcardNotTerminal) := by
  refine ⟨fun α hnd ps n hex => insert_nonterminal_wildcard hnd ps n hex, ?_⟩
  intro α hnd r m p hs hex
  simp [BaoRouter.on, hs, insert_nonterminal_wildcard hnd (splitPath p) _ hex]

/-- Witness for C8 at the pattern `/a/*x/b`. -/
theorem c8_nonterminal_wildcard_fails_witness :
    insertSegs (1 : Nat) ["a", "*x", "b"] Node.empty = .error .wildcardNotTerminal ∧
    BaoRouter.on (BaoRouter.empty : BaoRouter Nat) "GET" "/a/*x/b" 1
      = .error .wildcardNotTerminal :=
  ⟨c8_nonterminal_wildcard_fails.1 Nat 1 ["a", "*x", "b"] Node.empty
      ⟨1, by decide, by decide⟩,
   c8_nonterminal_wildcard_fails.2 Nat 1 BaoRouter.empty "GET" "/a/*x/b"
      (by decide) ⟨1, by decide, by decide⟩⟩

end Baojs
